import Mathlib

/-!
Shallow embedding of the DDP (Distributed Display Protocol) client from the
`ddp-rs` repository: the header codec (`src/protocol/mod.rs`,
`src/protocol/packet_type.rs`, `src/protocol/pixel_config.rs`,
`src/protocol/id.rs`, `src/protocol/timecode.rs`), the fragmenting sender
(`src/connection.rs`) and the inbound packet decoder (`src/packet.rs`).
Bytes are modelled as `Nat` values below 256; Rust machine-integer overflow
is made explicit with `% 2^w` where the source can overflow.
-/

namespace DDP

/-- Embeds `PacketType` from `src/protocol/packet_type.rs`: the decoded form of
header byte 0 (bits 7-6 version, bit 4 timecode, bit 3 storage, bit 2 reply,
bit 1 query, bit 0 push). -/
structure PacketType where
  version : Nat
  timecode : Bool
  storage : Bool
  reply : Bool
  query : Bool
  push : Bool
deriving DecidableEq, Repr

/-- `VERSION_MASK` constant from `packet_type.rs`. -/
def VERSION_MASK : Nat := 0xc0

/-- `TIMECODE` flag bit from `packet_type.rs`. -/
def TIMECODE : Nat := 0x10

/-- `STORAGE` flag bit from `packet_type.rs`. -/
def STORAGE : Nat := 0x08

/-- `REPLY` flag bit from `packet_type.rs`. -/
def REPLY : Nat := 0x04

/-- `QUERY` flag bit from `packet_type.rs`. -/
def QUERY : Nat := 0x02

/-- `PUSH` flag bit from `packet_type.rs`. -/
def PUSH : Nat := 0x01

/-- Embeds `impl Default for PacketType`: version 1, all flags clear. -/
def PacketType.default : PacketType :=
  { version := 1, timecode := false, storage := false, reply := false,
    query := false, push := false }

/-- Embeds `impl From<u8> for PacketType` (`packet_type.rs`): masks the version
bits and tests each flag bit independently. -/
def PacketType.fromByte (byte : Nat) : PacketType :=
  let version :=
    if byte &&& VERSION_MASK = 0x00 then 0
    else if byte &&& VERSION_MASK = 0x40 then 1
    else if byte &&& VERSION_MASK = 0x80 then 2
    else if byte &&& VERSION_MASK = 0xc0 then 3
    else 0
  { version := version
    timecode := byte &&& TIMECODE = TIMECODE
    storage := byte &&& STORAGE = STORAGE
    reply := byte &&& REPLY = REPLY
    query := byte &&& QUERY = QUERY
    push := byte &&& PUSH = PUSH }

/-- Embeds `impl Into<u8> for PacketType` (`packet_type.rs`). The Rust source
computes `v << 6` on a `u8`, so the result is truncated modulo 256 (version 4
loses its high bit and encodes as version bits 00). -/
def PacketType.toByte (pt : PacketType) : Nat :=
  let v := if pt.version = 1 ∨ pt.version = 2 ∨ pt.version = 3 ∨ pt.version = 4
    then pt.version else 0
  let byte := (v <<< 6) % 256
  let byte := if pt.timecode then byte ||| TIMECODE else byte
  let byte := if pt.storage then byte ||| STORAGE else byte
  let byte := if pt.reply then byte ||| REPLY else byte
  let byte := if pt.query then byte ||| QUERY else byte
  if pt.push then byte ||| PUSH else byte

/-- Embeds `DataType` from `src/protocol/pixel_config.rs`. -/
inductive DataType where
  | Undefined
  | RGB
  | HSL
  | RGBW
  | Grayscale
deriving DecidableEq, Repr

/-- Embeds `PixelFormat` from `src/protocol/pixel_config.rs`. -/
inductive PixelFormat where
  | Undefined
  | Pixel1Bits
  | Pixel4Bits
  | Pixel8Bits
  | Pixel16Bits
  | Pixel24Bits
  | Pixel32Bits
deriving DecidableEq, Repr

/-- Embeds `PixelConfig` from `src/protocol/pixel_config.rs`. -/
structure PixelConfig where
  data_type : DataType
  data_size : PixelFormat
  customer_defined : Bool
deriving DecidableEq, Repr

/-- Embeds `impl Default for PixelConfig`: RGB at 24 bits per pixel. -/
def PixelConfig.default : PixelConfig :=
  { data_type := DataType.RGB, data_size := PixelFormat.Pixel24Bits,
    customer_defined := false }

/-- Embeds `impl From<u8> for PixelConfig` (`pixel_config.rs`): bits 5-3 select
the data type, bits 2-0 the data size, bit 7 the customer-defined flag. -/
def PixelConfig.fromByte (byte : Nat) : PixelConfig :=
  let data_type :=
    if (byte >>> 3) &&& 0x07 = 0 then DataType.Undefined
    else if (byte >>> 3) &&& 0x07 = 1 then DataType.RGB
    else if (byte >>> 3) &&& 0x07 = 2 then DataType.HSL
    else if (byte >>> 3) &&& 0x07 = 3 then DataType.RGBW
    else if (byte >>> 3) &&& 0x07 = 4 then DataType.Grayscale
    else DataType.Undefined
  let data_size :=
    if byte &&& 0x07 = 0 then PixelFormat.Undefined
    else if byte &&& 0x07 = 1 then PixelFormat.Pixel1Bits
    else if byte &&& 0x07 = 2 then PixelFormat.Pixel4Bits
    else if byte &&& 0x07 = 3 then PixelFormat.Pixel8Bits
    else if byte &&& 0x07 = 4 then PixelFormat.Pixel16Bits
    else if byte &&& 0x07 = 5 then PixelFormat.Pixel24Bits
    else if byte &&& 0x07 = 6 then PixelFormat.Pixel32Bits
    else PixelFormat.Undefined
  { data_type := data_type, data_size := data_size,
    customer_defined := (byte >>> 7) != 0 }

/-- Embeds `impl Into<u8> for PixelConfig` (`pixel_config.rs`). -/
def PixelConfig.toByte (pc : PixelConfig) : Nat :=
  let byte := (match pc.data_type with
    | DataType.Undefined => 0
    | DataType.RGB => 1
    | DataType.HSL => 2
    | DataType.RGBW => 3
    | DataType.Grayscale => 4) <<< 3
  let byte := byte ||| (match pc.data_size with
    | PixelFormat.Undefined => 0
    | PixelFormat.Pixel1Bits => 1
    | PixelFormat.Pixel4Bits => 2
    | PixelFormat.Pixel8Bits => 3
    | PixelFormat.Pixel16Bits => 4
    | PixelFormat.Pixel24Bits => 5
    | PixelFormat.Pixel32Bits => 6)
  if pc.customer_defined then byte ||| 0x80 else byte

/-- Embeds `ID` from `src/protocol/id.rs`. -/
inductive ID where
  | Reserved
  | Default
  | Custom (value : Nat)
  | Control
  | Config
  | Status
  | DMX
  | Broadcast
deriving DecidableEq, Repr

/-- Embeds `impl From<u8> for ID` (`id.rs`): the seven canonical bytes map to
their variants and every other byte maps to `Custom`. -/
def ID.fromByte (value : Nat) : ID :=
  if value = 0 then ID.Reserved
  else if value = 1 then ID.Default
  else if value = 246 then ID.Control
  else if value = 250 then ID.Config
  else if value = 251 then ID.Status
  else if value = 254 then ID.DMX
  else if value = 255 then ID.Broadcast
  else ID.Custom value

/-- The valid custom byte ranges named in `impl Into<u8> for ID` (`id.rs`):
2-245, 247-249 and 252-253. -/
def ID.inCustomRange (value : Nat) : Prop :=
  (2 ≤ value ∧ value ≤ 245) ∨ (247 ≤ value ∧ value ≤ 249) ∨
    (252 ≤ value ∧ value ≤ 253)

instance (value : Nat) : Decidable (ID.inCustomRange value) := by
  unfold ID.inCustomRange
  exact inferInstance

/-- Embeds `impl Into<u8> for ID` (`id.rs`): canonical variants map to their
bytes and an out-of-range `Custom` value falls back to byte 1 (Default). -/
def ID.toByte : ID → Nat
  | ID.Reserved => 0
  | ID.Default => 1
  | ID.Control => 246
  | ID.Config => 250
  | ID.Status => 251
  | ID.DMX => 254
  | ID.Broadcast => 255
  | ID.Custom value => if ID.inCustomRange value then value else 1

/-- Embeds `TimeCode` from `src/protocol/timecode.rs`: an optional `u32`. -/
structure TimeCode where
  val : Option Nat
deriving DecidableEq, Repr

/-- Big-endian byte decomposition of a `u32`, as `u32::to_be_bytes` yields. -/
def beBytes4 (v : Nat) : List Nat :=
  [v / 2 ^ 24 % 256, v / 2 ^ 16 % 256, v / 2 ^ 8 % 256, v % 256]

/-- Big-endian byte decomposition of a `u16`, as `u16::to_be_bytes` yields. -/
def beBytes2 (v : Nat) : List Nat := [v / 2 ^ 8 % 256, v % 256]

/-- Reassembles a `u32` from big-endian bytes, as `u32::from_be_bytes` does. -/
def fromBe4 (b0 b1 b2 b3 : Nat) : Nat :=
  b0 * 2 ^ 24 + b1 * 2 ^ 16 + b2 * 2 ^ 8 + b3

/-- Reassembles a `u16` from big-endian bytes, as `u16::from_be_bytes` does. -/
def fromBe2 (b0 b1 : Nat) : Nat := b0 * 2 ^ 8 + b1

/-- Embeds `TimeCode::to_bytes` (`timecode.rs`): `unwrap_or(0)` then
big-endian bytes. -/
def TimeCode.to_bytes (t : TimeCode) : List Nat := beBytes4 (t.val.getD 0)

/-- Embeds `TimeCode::from_4_bytes` (`timecode.rs`). -/
def TimeCode.from_4_bytes (b0 b1 b2 b3 : Nat) : TimeCode :=
  { val := some (fromBe4 b0 b1 b2 b3) }

/-- Embeds `Header` from `src/protocol/mod.rs`. -/
structure Header where
  packet_type : PacketType
  sequence_number : Nat
  pixel_config : PixelConfig
  id : ID
  offset : Nat
  length : Nat
  time_code : TimeCode
deriving DecidableEq, Repr

/-- Embeds `Header::default()`: each field takes its Rust `Default` value. -/
def Header.default : Header :=
  { packet_type := PacketType.default, sequence_number := 0,
    pixel_config := PixelConfig.default, id := ID.Default, offset := 0,
    length := 0, time_code := { val := none } }

/-- Embeds `impl Into<[u8; 10]> for Header` (`mod.rs`). The sequence-number
field is a `u8` in Rust, hence the explicit `% 256`. -/
def Header.toBytes10 (h : Header) : List Nat :=
  [h.packet_type.toByte, h.sequence_number % 256, h.pixel_config.toByte,
    h.id.toByte] ++ beBytes4 h.offset ++ beBytes2 h.length

/-- Embeds `impl Into<[u8; 14]> for Header` (`mod.rs`): the 10-byte form
followed by the four timecode bytes. -/
def Header.toBytes14 (h : Header) : List Nat :=
  h.toBytes10 ++ h.time_code.to_bytes

/-- Embeds `impl From<&[u8]> for Header` (`mod.rs`). The timecode is read only
when the timecode flag is set and at least 14 bytes are present. -/
def Header.fromBytes (bytes : List Nat) : Header :=
  let packet_type := PacketType.fromByte (bytes.getD 0 0)
  let sequence_number := bytes.getD 1 0
  let pixel_config := PixelConfig.fromByte (bytes.getD 2 0)
  let id := ID.fromByte (bytes.getD 3 0)
  let offset := fromBe4 (bytes.getD 4 0) (bytes.getD 5 0) (bytes.getD 6 0)
    (bytes.getD 7 0)
  let length := fromBe2 (bytes.getD 8 0) (bytes.getD 9 0)
  if packet_type.timecode ∧ 14 ≤ bytes.length then
    { packet_type := packet_type, sequence_number := sequence_number,
      pixel_config := pixel_config, id := id, offset := offset,
      length := length,
      time_code := TimeCode.from_4_bytes (bytes.getD 10 0) (bytes.getD 11 0)
        (bytes.getD 12 0) (bytes.getD 13 0) }
  else
    { packet_type := packet_type, sequence_number := sequence_number,
      pixel_config := pixel_config, id := id, offset := offset,
      length := length, time_code := { val := none } }

/-- The on-the-wire serialization of a header chosen by
`DDPConnection::assemble_packet` (`connection.rs`): the 14-byte form when the
timecode flag is set, the 10-byte form otherwise. -/
def Header.encode (h : Header) : List Nat :=
  if h.packet_type.timecode then h.toBytes14 else h.toBytes10

/-- `MAX_DATA_LENGTH` from `src/connection.rs`: 480 pixels times 3 bytes. -/
def MAX_DATA_LENGTH : Nat := 480 * 3

/-- The observable sending state of a `DDPConnection` (`src/connection.rs`):
its `sequence_number` field and the list of datagrams handed to
`UdpSocket::send_to`, in order. The socket, address and the reusable 1500-byte
scratch buffer carry no further observable state: `assemble_packet` overwrites
every byte of the prefix it sends, so each datagram is exactly the serialized
header followed by the chunk. -/
structure SendState where
  sequence_number : Nat
  datagrams : List (List Nat)
deriving DecidableEq, Repr

/-- Embeds `DDPConnection::assemble_packet` (`connection.rs`): serializes the
header (14 bytes when the timecode flag is set, 10 otherwise) followed by the
chunk into one outbound buffer. -/
def assemble_packet (header : Header) (data : List Nat) : List Nat :=
  Header.encode header ++ data

/-- Embeds the `while offset < data.len()` loop of `DDPConnection::slice_send`
(`connection.rs`). `fuel` only bounds the recursion: each iteration consumes
at least one byte of `data`, so the `data.length` fuel supplied by
`slice_send` is never exhausted while the loop guard holds, and the function
agrees with the unbounded `while` loop. Mutable loop state is passed
explicitly: `header` (whose `push`, `sequence_number`, `length` and `offset`
fields the loop reassigns, with the `u16`/`u32` stores truncated explicitly),
`offset`, `iter` and the running byte count `sent`. `send_to` is modelled as
appending the buffer to `st.datagrams` and returning its length. -/
def sliceSendLoop (fuel : Nat) (st : SendState) (header : Header)
    (data : List Nat) (offset iter num_iterations sent : Nat) :
    SendState × Nat :=
  match fuel with
  | 0 => (st, sent)
  | fuel + 1 =>
    if offset < data.length then
      let iter := iter + 1
      let header := if iter = num_iterations then
        { header with packet_type := { header.packet_type with push := true } }
        else header
      let header := { header with sequence_number := st.sequence_number }
      let chunk_end := min (offset + MAX_DATA_LENGTH) data.length
      let chunk := (data.drop offset).take (chunk_end - offset)
      let header := { header with length := chunk.length % 2 ^ 16 }
      let buf := assemble_packet header chunk
      let st' : SendState :=
        { sequence_number :=
            if st.sequence_number > 15 then 1 else st.sequence_number + 1
          datagrams := st.datagrams ++ [buf] }
      let offset := offset + MAX_DATA_LENGTH
      let header := { header with offset := offset % 2 ^ 32 }
      sliceSendLoop fuel st' header data offset iter num_iterations
        (sent + buf.length)
    else (st, sent)

namespace DDPConnection

/-- Embeds `DDPConnection::slice_send` (`connection.rs`): the local `offset`
starts at `header.offset`, `num_iterations` is the ceiling of
`data.len() / MAX_DATA_LENGTH`, and the loop runs while `offset` is inside
`data`. -/
def slice_send (st : SendState) (header : Header) (data : List Nat) :
    SendState × Nat :=
  sliceSendLoop data.length st header data header.offset 0
    ((data.length + MAX_DATA_LENGTH - 1) / MAX_DATA_LENGTH) 0

/-- Embeds `DDPConnection::write` (`connection.rs`): a default header with the
push flag cleared and the connection's pixel config and id, then
`slice_send`. -/
def write (st : SendState) (pixel_config : PixelConfig) (id : ID)
    (data : List Nat) : SendState × Nat :=
  let h := Header.default
  let h := { h with packet_type := { h.packet_type with push := false } }
  let h := { h with pixel_config := pixel_config, id := id }
  slice_send st h data

/-- Embeds `DDPConnection::write_offset` (`connection.rs`): like `write` but
with the header's base offset set before fragmenting. -/
def write_offset (st : SendState) (pixel_config : PixelConfig) (id : ID)
    (data : List Nat) (offset : Nat) : SendState × Nat :=
  let h := Header.default
  let h := { h with packet_type := { h.packet_type with push := false } }
  let h := { h with pixel_config := pixel_config, id := id, offset := offset }
  slice_send st h data

/-- Embeds `DDPConnection::write_message` (`connection.rs`), parametrized by
the message's id (`msg.get_id()`) and its serialized JSON bytes (`msg_data`,
produced by the external `serde_json` serializer): a default header with push
cleared, the id and length stamped, then `slice_send`. -/
def write_message (st : SendState) (id : ID) (msg_data : List Nat) :
    SendState × Nat :=
  let h := Header.default
  let h := { h with packet_type := { h.packet_type with push := false } }
  let h := { h with id := id, length := msg_data.length % 2 ^ 16 }
  slice_send st h msg_data

/-- Embeds the sending state a successful `DDPConnection::try_new`
(`connection.rs`) establishes: `sequence_number` 1 and no datagrams sent. -/
def try_new : SendState := { sequence_number := 1, datagrams := [] }

end DDPConnection

/-- Embeds `Color` from `src/protocol/message.rs`. -/
structure Color where
  r : Nat
  g : Nat
  b : Nat

/-- Embeds `Control` from `src/protocol/message.rs`. -/
structure Control where
  fx : Option String
  int : Option Nat
  spd : Option Nat
  dir : Option Nat
  colors : Option (List Color)
  save : Option Nat
  power : Option Nat

/-- Embeds `ControlRoot` from `src/protocol/message.rs`. -/
structure ControlRoot where
  control : Control

/-- Embeds `Status` from `src/protocol/message.rs`. -/
structure Status where
  update : Option String
  state : Option String
  man : Option String
  model : Option String
  ver : Option String
  mac : Option String
  push : Option Bool
  ntp : Option Bool

/-- Embeds `StatusRoot` from `src/protocol/message.rs`. -/
structure StatusRoot where
  status : Status

/-- Embeds `Port` from `src/protocol/message.rs`. -/
structure Port where
  port : Nat
  ts : Nat
  l : Nat
  ss : Nat

/-- Embeds `Config` from `src/protocol/message.rs`. -/
structure Config where
  ip : Option String
  nm : Option String
  gw : Option String
  ports : List Port

/-- Embeds `ConfigRoot` from `src/protocol/message.rs`. -/
structure ConfigRoot where
  config : Config

/-- Model of `serde_json::Value`: an untyped JSON tree. -/
inductive Json where
  | null
  | bool (b : Bool)
  | num (n : Int)
  | str (s : String)
  | arr (elems : List Json)
  | obj (fields : List (String × Json))

/-- Embeds `Message` from `src/protocol/message.rs`. -/
inductive Message where
  | Control (c : ControlRoot)
  | Status (s : StatusRoot)
  | Config (c : ConfigRoot)
  | Parsed (p : ID × Json)
  | Unparsed (p : ID × String)

/-- The external byte parsers `Packet::from_bytes` calls (`src/packet.rs`):
`serde_json::from_slice` at the three typed schemas and at `Value`, and
`std::str::from_utf8`. They live in external crates, so the decoder is
parametrized over their behavior. -/
structure JsonCodec where
  parseControl : List Nat → Option ControlRoot
  parseConfig : List Nat → Option ConfigRoot
  parseStatus : List Nat → Option StatusRoot
  parseValue : List Nat → Option Json
  utf8 : List Nat → Option String

/-- Embeds `Packet` from `src/packet.rs`. -/
structure Packet where
  header : Header
  data : List Nat
  parsed : Option Message

/-- The default packet `Packet::from_bytes` returns on truncated input:
default header, empty data, nothing parsed. -/
def Packet.defaultPacket : Packet :=
  { header := Header.default, data := [], parsed := none }

/-- The header size `Packet::from_bytes` computes from bit 4 of byte 0
(`bytes[0] & 0b00010000`): 14 with a timecode, 10 without. -/
def headerSizeOf (bytes : List Nat) : Nat :=
  if bytes.getD 0 0 &&& 0b00010000 ≠ 0 then 14 else 10

/-- Embeds `Packet::from_bytes` (`src/packet.rs`), parametrized by the
external JSON/UTF-8 parsers: length guards first, then header decode, then -
only for reply packets - the typed parse for the Control/Config/Status ids,
falling back to untyped JSON, then UTF-8 text, then nothing. -/
def Packet.from_bytes (c : JsonCodec) (bytes : List Nat) : Packet :=
  if bytes.length < 10 then Packet.defaultPacket
  else
    let header_size := headerSizeOf bytes
    if bytes.length < header_size then Packet.defaultPacket
    else
      let header := Header.fromBytes (bytes.take header_size)
      let data := bytes.drop header_size
      let parsed : Option Message :=
        if header.packet_type.reply then
          let typed : Option Message :=
            match header.id with
            | ID.Control => (c.parseControl data).map Message.Control
            | ID.Config => (c.parseConfig data).map Message.Config
            | ID.Status => (c.parseStatus data).map Message.Status
            | _ => none
          match typed with
          | some v => some v
          | none =>
            match header.id with
            | ID.Control | ID.Config | ID.Status =>
              match c.parseValue data with
              | some v => some (Message.Parsed (header.id, v))
              | none =>
                match c.utf8 data with
                | some s => some (Message.Unparsed (header.id, s))
                | none => none
            | _ => none
        else none
      { header := header, data := data, parsed := parsed }

/-- An `ID` value all of whose payload is in range: canonical variants always,
`Custom` exactly when its byte lies in the valid custom ranges. -/
def ID.ValidValue : ID → Prop
  | ID.Custom v => ID.inCustomRange v
  | _ => True

instance (i : ID) : Decidable i.ValidValue :=
  match i with
  | ID.Reserved => inferInstanceAs (Decidable True)
  | ID.Default => inferInstanceAs (Decidable True)
  | ID.Custom v => inferInstanceAs (Decidable (ID.inCustomRange v))
  | ID.Control => inferInstanceAs (Decidable True)
  | ID.Config => inferInstanceAs (Decidable True)
  | ID.Status => inferInstanceAs (Decidable True)
  | ID.DMX => inferInstanceAs (Decidable True)
  | ID.Broadcast => inferInstanceAs (Decidable True)

/-- An `ID` from the canonical non-custom set. -/
def ID.IsCanonical : ID → Prop
  | ID.Custom _ => False
  | _ => True

instance (i : ID) : Decidable i.IsCanonical :=
  match i with
  | ID.Reserved => inferInstanceAs (Decidable True)
  | ID.Default => inferInstanceAs (Decidable True)
  | ID.Custom _ => inferInstanceAs (Decidable False)
  | ID.Control => inferInstanceAs (Decidable True)
  | ID.Config => inferInstanceAs (Decidable True)
  | ID.Status => inferInstanceAs (Decidable True)
  | ID.DMX => inferInstanceAs (Decidable True)
  | ID.Broadcast => inferInstanceAs (Decidable True)

/-- A header whose fields satisfy the validity constraints the spec states:
version 1-4, any flags, a `u8` sequence number, an in-range id, `u32` offset
and timecode, `u16` length, and a timecode value present exactly when the
timecode flag is set. -/
def Header.ClaimValid (h : Header) : Prop :=
  1 ≤ h.packet_type.version ∧ h.packet_type.version ≤ 4 ∧
    h.sequence_number < 256 ∧ h.id.ValidValue ∧ h.offset < 2 ^ 32 ∧
    h.length < 2 ^ 16 ∧ h.time_code.val.isSome = h.packet_type.timecode ∧
    h.time_code.val.getD 0 < 2 ^ 32

instance (h : Header) : Decidable h.ClaimValid := by
  unfold Header.ClaimValid
  exact inferInstance

end DDP

namespace DDP

lemma packetType_roundtrip (pt : PacketType) (h1 : 1 ≤ pt.version)
    (h2 : pt.version ≤ 3) : PacketType.fromByte pt.toByte = pt := by
  obtain ⟨v, a, b, c, d, e⟩ := pt
  have h1' : 1 ≤ v := h1
  have h2' : v ≤ 3 := h2
  interval_cases v <;> cases a <;> cases b <;> cases c <;> cases d <;>
    cases e <;> decide

lemma pixelConfig_roundtrip (pc : PixelConfig) :
    PixelConfig.fromByte pc.toByte = pc := by
  obtain ⟨dt, ds, cd⟩ := pc
  cases dt <;> cases ds <;> cases cd <;> decide

lemma id_roundtrip (i : ID) (h : i.ValidValue) :
    ID.fromByte i.toByte = i := by
  cases i with
  | Custom v =>
    have hr : ID.inCustomRange v := h
    have hr' := hr
    unfold ID.inCustomRange at hr'
    unfold ID.toByte ID.fromByte
    dsimp only
    rw [if_pos hr]
    split_ifs <;> first | rfl | omega
  | Reserved => decide
  | Default => decide
  | Control => decide
  | Config => decide
  | Status => decide
  | DMX => decide
  | Broadcast => decide

lemma fromBe4_roundtrip (v : Nat) (h : v < 2 ^ 32) :
    fromBe4 (v / 2 ^ 24 % 256) (v / 2 ^ 16 % 256) (v / 2 ^ 8 % 256) (v % 256)
      = v := by
  unfold fromBe4
  omega

lemma fromBe2_roundtrip (v : Nat) (h : v < 2 ^ 16) :
    fromBe2 (v / 2 ^ 8 % 256) (v % 256) = v := by
  unfold fromBe2
  omega

/-- C3 (counterexample): a header that is valid as the claim states it -
version 4 lies in the claimed 1-4 range, all other fields in range - does not
survive an encode/decode roundtrip: `4u8 << 6` truncates to 0, so the encoded
byte carries version bits 00, which decode to version 0. -/
theorem header_version4_roundtrip_fails :
    Header.ClaimValid
      { packet_type :=
          { version := 4, timecode := false, storage := false,
            reply := false, query := false, push := false },
        sequence_number := 1, pixel_config := PixelConfig.default,
        id := ID.Default, offset := 0, length := 0,
        time_code := { val := none } } ∧
    Header.fromBytes (Header.encode
      { packet_type :=
          { version := 4, timecode := false, storage := false,
            reply := false, query := false, push := false },
        sequence_number := 1, pixel_config := PixelConfig.default,
        id := ID.Default, offset := 0, length := 0,
        time_code := { val := none } }) ≠
      { packet_type :=
          { version := 4, timecode := false, storage := false,
            reply := false, query := false, push := false },
        sequence_number := 1, pixel_config := PixelConfig.default,
        id := ID.Default, offset := 0, length := 0,
        time_code := { val := none } } := by
  decide

/-- C3 (amended): for every header whose fields are valid per the spec with
the version restricted to 1-3 - any flag combination, any `u8` sequence
number, any pixel config, any in-range id, any `u32` offset, any `u16`
length, and a timecode value present exactly when the timecode flag is set -
decoding the encoded byte form returns the original header, in both the
10-byte and the 14-byte timecode forms. -/
theorem header_encode_decode_roundtrip (h : Header) (hv : h.ClaimValid)
    (h3 : h.packet_type.version ≤ 3) :
    Header.fromBytes (Header.encode h) = h := by
  obtain ⟨pt, seq, pc, idv, off, len, tc⟩ := h
  obtain ⟨tcv⟩ := tc
  obtain ⟨hv1, hv2, hseq, hid, hoff, hlen, htc, htcv⟩ := hv
  dsimp only at hv1 hv2 hseq hid hoff hlen htc htcv h3
  have hpt : PacketType.fromByte pt.toByte = pt :=
    packetType_roundtrip pt hv1 h3
  by_cases ht : pt.timecode
  · rw [ht] at htc
    obtain ⟨t, rfl⟩ : ∃ t, tcv = some t := by
      cases tcv
      · simp at htc
      · exact ⟨_, rfl⟩
    simp only [Option.getD_some] at htcv
    simp only [Header.encode, Header.toBytes14, Header.toBytes10,
      TimeCode.to_bytes, beBytes4, beBytes2, ht, if_true,
      List.cons_append, List.nil_append, Option.getD_some]
    simp only [Header.fromBytes, List.getD_cons_zero, List.getD_cons_succ,
      List.length_cons, List.length_nil, hpt, ht, true_and]
    rw [if_pos (by norm_num)]
    simp only [TimeCode.from_4_bytes, Header.mk.injEq]
    simp [Nat.mod_eq_of_lt hseq, pixelConfig_roundtrip, id_roundtrip idv hid]
    unfold fromBe4 fromBe2
    omega
  · rw [Bool.not_eq_true] at ht
    rw [ht] at htc
    have htcv0 : tcv = none := by
      cases tcv
      · rfl
      · simp at htc
    subst htcv0
    simp only [Header.encode, Header.toBytes10, beBytes4, beBytes2,
      ht, Bool.false_eq_true, if_false, List.cons_append, List.nil_append]
    simp only [Header.fromBytes, List.getD_cons_zero, List.getD_cons_succ,
      List.length_cons, List.length_nil, hpt, ht,
      Bool.false_eq_true, false_and, if_false]
    simp only [Header.mk.injEq]
    simp [Nat.mod_eq_of_lt hseq, pixelConfig_roundtrip, id_roundtrip idv hid]
    unfold fromBe4 fromBe2
    omega

/-- Witness for the amended C3 roundtrip at a concrete valid header with the
timecode flag set (the 14-byte form). -/
theorem header_encode_decode_roundtrip_witness :
    Header.fromBytes (Header.encode
      { packet_type :=
          { version := 2, timecode := true, storage := false,
            reply := true, query := false, push := true },
        sequence_number := 7, pixel_config := PixelConfig.default,
        id := ID.Custom 42, offset := 123456, length := 999,
        time_code := { val := some 77 } }) =
      { packet_type :=
          { version := 2, timecode := true, storage := false,
            reply := true, query := false, push := true },
        sequence_number := 7, pixel_config := PixelConfig.default,
        id := ID.Custom 42, offset := 123456, length := 999,
        time_code := { val := some 77 } } :=
  header_encode_decode_roundtrip _ (by decide) (by decide)

set_option maxRecDepth 4096 in
/-- C6: every byte 0-255 decodes to an in-range ID variant (decode is total
and never manufactures an out-of-range `Custom`); every canonical non-custom
ID survives an encode/decode roundtrip; and encoding a `Custom` value outside
the custom byte ranges yields the Default byte 1, never another canonical
ID's byte. -/
theorem id_codec_total_and_canonical_roundtrip :
    (∀ b : Nat, b < 256 → (ID.fromByte b).ValidValue) ∧
    (∀ i : ID, i.IsCanonical → ID.fromByte i.toByte = i) ∧
    (∀ v : Nat, v < 256 → ¬ ID.inCustomRange v →
      ID.toByte (ID.Custom v) = 1) := by
  refine ⟨by decide, ?_, ?_⟩
  · intro i hi
    cases i <;> first | decide | exact hi.elim
  · intro v hv hnc
    unfold ID.toByte
    dsimp only
    rw [if_neg hnc]

/-- Witness for C6 at concrete inputs: byte 37 decodes to a valid ID, Status
roundtrips, and the out-of-range Custom value 255 encodes to byte 1. -/
theorem id_codec_total_and_canonical_roundtrip_witness :
    (ID.fromByte 37).ValidValue ∧
    ID.fromByte (ID.toByte ID.Status) = ID.Status ∧
    ID.toByte (ID.Custom 255) = 1 :=
  ⟨id_codec_total_and_canonical_roundtrip.1 37 (by decide),
    id_codec_total_and_canonical_roundtrip.2.1 ID.Status (by decide),
    id_codec_total_and_canonical_roundtrip.2.2 255 (by decide) (by decide)⟩

/-- C4: on a freshly constructed connection (sequence number 1, default
RGB/24-bit pixel config, default ID), `write` of the nine bytes
`[255,0,0, 0,255,0, 0,0,255]` emits exactly one 19-byte datagram: header
bytes `41 01 0D 01 00 00 00 00 00 09` followed by the payload, and reports
19 bytes sent. -/
theorem write_three_pixels_single_datagram :
    DDPConnection.write DDPConnection.try_new PixelConfig.default ID.Default
      [255, 0, 0, 0, 255, 0, 0, 0, 255] =
    ({ sequence_number := 2,
       datagrams := [[0x41, 0x01, 0x0D, 0x01, 0x00, 0x00, 0x00, 0x00, 0x00,
         0x09, 0xFF, 0x00, 0x00, 0x00, 0xFF, 0x00, 0x00, 0x00, 0xFF]] },
      19) := by
  decide

/-- One `write` of a single 3-byte fragment with the connection defaults;
each call transmits exactly one fragment, so iterating it counts
consecutive fragment transmissions. -/
def writeStep (st : SendState) : SendState :=
  (DDPConnection.write st PixelConfig.default ID.Default [0, 0, 0]).1

/-- C1 (divergence witness): after 15 single-fragment writes from a fresh
connection, the 16th transmitted fragment carries sequence number 16 (byte
`0x10`) in header byte 1, not 1 as claimed; the counter only wraps afterwards,
so the 17th fragment carries 1. The increment in `slice_send` tests
`> 15` after stamping, so the stamped values cycle through 1..16. -/
theorem sixteenth_fragment_carries_sequence_sixteen :
    (writeStep^[16] DDPConnection.try_new).datagrams.length = 16 ∧
    ((writeStep^[16] DDPConnection.try_new).datagrams.getD 15 []).getD 1 0
      = 16 ∧
    ((writeStep^[17] DDPConnection.try_new).datagrams.getD 16 []).getD 1 0
      = 1 := by
  decide

/-- C2 (divergence witness): the `write_offset` documentation example - three
payload bytes at byte offset 30, meant to repaint pixel 10 - transmits
nothing at all and returns 0, because `slice_send` starts its loop index at
the header's base offset into the payload slice and 30 is past the end of the
3-byte payload. -/
theorem write_offset_doc_example_sends_nothing :
    DDPConnection.write_offset DDPConnection.try_new PixelConfig.default
      ID.Default [255, 255, 255] 30 = (DDPConnection.try_new, 0) := by
  decide

end DDP
namespace DDP

lemma sliceSendLoop_exit (fuel : Nat) (st : SendState) (header : Header)
    (data : List Nat) (offset iter ni sent : Nat)
    (h : ¬ offset < data.length) :
    sliceSendLoop fuel st header data offset iter ni sent = (st, sent) := by
  cases fuel <;> simp [sliceSendLoop, h]

lemma assemble_getD_one (h : Header) (data : List Nat) :
    (assemble_packet h data).getD 1 0 = h.sequence_number % 256 := by
  unfold assemble_packet Header.encode Header.toBytes14 Header.toBytes10
    TimeCode.to_bytes beBytes4 beBytes2
  split <;> simp [List.getD_cons_succ, List.getD_cons_zero]

/-- The chunk `data[offset..chunk_end]` one iteration of `slice_send` sends. -/
def stepChunk (data : List Nat) (offset : Nat) : List Nat :=
  (data.drop offset).take (min (offset + MAX_DATA_LENGTH) data.length - offset)

/-- The header one iteration of `slice_send` serializes: push possibly set on
the final iteration, the sequence number stamped, the chunk length stored. -/
def stepHeader (st : SendState) (header : Header) (data : List Nat)
    (offset iter ni : Nat) : Header :=
  { (if iter + 1 = ni then
      { header with packet_type := { header.packet_type with push := true } }
      else header) with
    sequence_number := st.sequence_number,
    length := (stepChunk data offset).length % 2 ^ 16 }

/-- The datagram one iteration of `slice_send` transmits. -/
def stepBuf (st : SendState) (header : Header) (data : List Nat)
    (offset iter ni : Nat) : List Nat :=
  assemble_packet (stepHeader st header data offset iter ni)
    (stepChunk data offset)

/-- The header value carried into the next iteration: the serialized header
with the advanced offset stored back (a `u32` store). -/
def stepNextHeader (st : SendState) (header : Header) (data : List Nat)
    (offset iter ni : Nat) : Header :=
  { stepHeader st header data offset iter ni with
    offset := (offset + MAX_DATA_LENGTH) % 2 ^ 32 }

/-- The sequence number after an iteration: reset to 1 above 15, else +1. -/
def stepSeq (st : SendState) : Nat :=
  if st.sequence_number > 15 then 1 else st.sequence_number + 1

lemma sliceSendLoop_succ (fuel : Nat) (st : SendState) (header : Header)
    (data : List Nat) (offset iter ni sent : Nat)
    (h : offset < data.length) :
    sliceSendLoop (fuel + 1) st header data offset iter ni sent =
      sliceSendLoop fuel
        { sequence_number := stepSeq st,
          datagrams := st.datagrams ++ [stepBuf st header data offset iter ni] }
        (stepNextHeader st header data offset iter ni) data
        (offset + MAX_DATA_LENGTH) (iter + 1) ni
        (sent + (stepBuf st header data offset iter ni).length) := by
  simp only [sliceSendLoop]
  rw [if_pos h]
  rfl

lemma sliceSendLoop_seq_inv (fuel : Nat) :
    ∀ st header data offset iter ni sent,
      1 ≤ st.sequence_number → st.sequence_number ≤ 16 →
      (1 ≤ (sliceSendLoop fuel st header data offset iter ni sent).1.sequence_number ∧
        (sliceSendLoop fuel st header data offset iter ni sent).1.sequence_number ≤ 16) ∧
      ∀ d ∈ (sliceSendLoop fuel st header data offset iter ni sent).1.datagrams,
        d ∈ st.datagrams ∨ (1 ≤ d.getD 1 0 ∧ d.getD 1 0 ≤ 16) := by
  induction fuel with
  | zero =>
    intro st header data offset iter ni sent h1 h2
    simp only [sliceSendLoop]
    exact ⟨⟨h1, h2⟩, fun d hd => Or.inl hd⟩
  | succ fuel ih =>
    intro st header data offset iter ni sent h1 h2
    by_cases hlt : offset < data.length
    · rw [sliceSendLoop_succ _ _ _ _ _ _ _ _ hlt]
      have h1' : 1 ≤ stepSeq st := by
        unfold stepSeq
        split <;> omega
      have h2' : stepSeq st ≤ 16 := by
        unfold stepSeq
        split <;> omega
      obtain ⟨hA, hB⟩ := ih
        { sequence_number := stepSeq st,
          datagrams := st.datagrams ++ [stepBuf st header data offset iter ni] }
        (stepNextHeader st header data offset iter ni) data
        (offset + MAX_DATA_LENGTH) (iter + 1) ni
        (sent + (stepBuf st header data offset iter ni).length) h1' h2'
      refine ⟨hA, fun d hd => ?_⟩
      rcases hB d hd with hmem | hbnd
      · rcases List.mem_append.mp hmem with hmem2 | hmem2
        · exact Or.inl hmem2
        · right
          have hd2 : d = stepBuf st header data offset iter ni := by
            simpa using hmem2
          subst hd2
          rw [stepBuf, assemble_getD_one]
          have hsh : (stepHeader st header data offset iter ni).sequence_number
              = st.sequence_number := rfl
          rw [hsh, Nat.mod_eq_of_lt (by omega)]
          omega
      · exact Or.inr hbnd
    · rw [sliceSendLoop_exit _ _ _ _ _ _ _ _ hlt]
      exact ⟨⟨h1, h2⟩, fun d hd => Or.inl hd⟩

end DDP
namespace DDP

/-- The sequence counter lies in the range the increment logic maintains. -/
def SeqBounds (st : SendState) : Prop :=
  1 ≤ st.sequence_number ∧ st.sequence_number ≤ 16

instance (st : SendState) : Decidable (SeqBounds st) := by
  unfold SeqBounds
  exact inferInstance

/-- Every datagram present after a call was either already sent before the
call or carries a stamped sequence byte (header byte 1) between 1 and 16. -/
def NewDatagramsSeqOk (st st' : SendState) : Prop :=
  ∀ d ∈ st'.datagrams, d ∈ st.datagrams ∨ (1 ≤ d.getD 1 0 ∧ d.getD 1 0 ≤ 16)

lemma slice_send_seq_inv (st : SendState) (header : Header) (data : List Nat)
    (h1 : 1 ≤ st.sequence_number) (h2 : st.sequence_number ≤ 16) :
    SeqBounds (DDPConnection.slice_send st header data).1 ∧
      NewDatagramsSeqOk st (DDPConnection.slice_send st header data).1 := by
  unfold DDPConnection.slice_send
  exact sliceSendLoop_seq_inv _ _ _ _ _ _ _ _ h1 h2

/-- C9: `try_new` initializes the sequence counter to 1, and every `write`,
`write_offset` and `write_message` call keeps it in the range 1 to 16
inclusive; every fragment such a call transmits carries a stamped sequence
byte (header byte 1) between 1 and 16, never 0. -/
theorem sequence_counter_invariant :
    DDPConnection.try_new.sequence_number = 1 ∧
    (∀ st pc id data, SeqBounds st →
      SeqBounds (DDPConnection.write st pc id data).1 ∧
      NewDatagramsSeqOk st (DDPConnection.write st pc id data).1) ∧
    (∀ st pc id data offset, SeqBounds st →
      SeqBounds (DDPConnection.write_offset st pc id data offset).1 ∧
      NewDatagramsSeqOk st (DDPConnection.write_offset st pc id data offset).1) ∧
    (∀ st id msg_data, SeqBounds st →
      SeqBounds (DDPConnection.write_message st id msg_data).1 ∧
      NewDatagramsSeqOk st (DDPConnection.write_message st id msg_data).1) := by
  refine ⟨rfl, ?_, ?_, ?_⟩
  · intro st pc id data hb
    exact slice_send_seq_inv st _ data hb.1 hb.2
  · intro st pc id data offset hb
    exact slice_send_seq_inv st _ data hb.1 hb.2
  · intro st id msg_data hb
    exact slice_send_seq_inv st _ msg_data hb.1 hb.2

/-- Witness for C9 at a concrete call: one 3-byte `write` from a fresh
connection. -/
theorem sequence_counter_invariant_witness :
    SeqBounds (DDPConnection.write DDPConnection.try_new PixelConfig.default
      ID.Default [9, 9, 9]).1 ∧
    NewDatagramsSeqOk DDPConnection.try_new
      (DDPConnection.write DDPConnection.try_new PixelConfig.default
        ID.Default [9, 9, 9]).1 :=
  sequence_counter_invariant.2.1 DDPConnection.try_new PixelConfig.default
    ID.Default [9, 9, 9] (by decide)

/-- C10: for every non-empty payload and every base offset at or past the end
of the payload, `write_offset` transmits no datagram, returns 0 bytes sent,
and leaves the whole connection state - its sequence counter included -
unchanged. -/
theorem write_offset_beyond_length_sends_nothing (st : SendState)
    (pc : PixelConfig) (id : ID) (data : List Nat) (offset : Nat)
    (_hne : data ≠ []) (hoff : data.length ≤ offset) :
    DDPConnection.write_offset st pc id data offset = (st, 0) := by
  unfold DDPConnection.write_offset DDPConnection.slice_send
  exact sliceSendLoop_exit _ _ _ _ _ _ _ _ (Nat.not_lt.mpr hoff)

/-- Witness for C10 at a concrete call: 3 payload bytes at offset 7. -/
theorem write_offset_beyond_length_sends_nothing_witness :
    DDPConnection.write_offset DDPConnection.try_new PixelConfig.default
      ID.Default [1, 2, 3] 7 = (DDPConnection.try_new, 0) :=
  write_offset_beyond_length_sends_nothing _ _ _ _ _ (by decide) (by decide)

/-- C5: writing any 2000-byte payload at base offset 0 transmits exactly two
datagrams: the first carries the first 1440 payload bytes with header length
1440, header offset 0 and the push flag clear; the second carries the
remaining 560 bytes with header length 560, header offset 1440 and the push
flag set. -/
theorem write_2000_bytes_two_datagrams (st : SendState) (pc : PixelConfig)
    (id : ID) (data : List Nat) (hlen : data.length = 2000) :
    ∃ h1 c1 h2 c2,
      (DDPConnection.write st pc id data).1.datagrams =
        st.datagrams ++ [assemble_packet h1 c1, assemble_packet h2 c2] ∧
      c1 = data.take 1440 ∧ h1.length = 1440 ∧ h1.offset = 0 ∧
      h1.packet_type.push = false ∧
      c2 = data.drop 1440 ∧ h2.length = 560 ∧ h2.offset = 1440 ∧
      h2.packet_type.push = true := by
  unfold DDPConnection.write DDPConnection.slice_send
  dsimp only [Header.default, PacketType.default, PixelConfig.default]
  rw [hlen]
  norm_num [MAX_DATA_LENGTH]
  rw [show (2000 : Nat) = 1999 + 1 from rfl]
  rw [sliceSendLoop_succ _ _ _ _ _ _ _ _ (by omega)]
  rw [show (1999 : Nat) = 1998 + 1 from rfl]
  rw [sliceSendLoop_succ _ _ _ _ _ _ _ _
    (by simp only [MAX_DATA_LENGTH]; omega)]
  rw [sliceSendLoop_exit _ _ _ _ _ _ _ _
    (by simp only [MAX_DATA_LENGTH]; omega)]
  simp only [stepBuf]
  rw [List.append_assoc]
  refine ⟨_, _, _, _, rfl, ?_, ?_, ?_, ?_, ?_, ?_, ?_, ?_⟩
  · simp [stepChunk, MAX_DATA_LENGTH, hlen]
  · simp [stepHeader, stepChunk, MAX_DATA_LENGTH, hlen]
  · simp [stepHeader]
  · simp [stepHeader]
  · simp [stepChunk, MAX_DATA_LENGTH, hlen, List.take_of_length_le]
  · simp [stepHeader, stepChunk, stepNextHeader, MAX_DATA_LENGTH, hlen]
  · simp [stepHeader, stepNextHeader, MAX_DATA_LENGTH]
  · simp [stepHeader, stepNextHeader]

end DDP
namespace DDP

/-- A parser assignment where every external parse fails: models receiving
bytes that are neither schema-conformant JSON, nor JSON, nor UTF-8. -/
def trivialCodec : JsonCodec :=
  { parseControl := fun _ => none, parseConfig := fun _ => none,
    parseStatus := fun _ => none, parseValue := fun _ => none,
    utf8 := fun _ => none }

/-- A parser assignment whose untyped-JSON stage always succeeds: models
receiving a body that is valid JSON but matches no typed schema. -/
def jsonOkCodec : JsonCodec :=
  { parseControl := fun _ => none, parseConfig := fun _ => none,
    parseStatus := fun _ => none, parseValue := fun _ => some Json.null,
    utf8 := fun _ => none }

/-- C8: for every input shorter than the applicable header length - fewer
than 10 bytes, or fewer than 14 when byte 0 carries the timecode flag bit -
`Packet::from_bytes` returns the default packet (default header, empty data,
nothing parsed); the header parser is only ever applied to the length-checked
prefix, so no out-of-bounds read occurs. -/
theorem from_bytes_truncated_returns_default (c : JsonCodec)
    (bytes : List Nat)
    (h : bytes.length < 10 ∨
      (bytes.getD 0 0 &&& 0b00010000 ≠ 0 ∧ bytes.length < 14)) :
    Packet.from_bytes c bytes = Packet.defaultPacket := by
  unfold Packet.from_bytes
  rcases h with h | ⟨htc, h14⟩
  · rw [if_pos h]
  · by_cases h10 : bytes.length < 10
    · rw [if_pos h10]
    · rw [if_neg h10]
      have hhs : headerSizeOf bytes = 14 := by
        unfold headerSizeOf
        rw [if_pos htc]
      dsimp only
      rw [hhs, if_pos h14]

/-- Witness for C8: a 12-byte input whose first byte has the timecode bit
set, so the applicable header length is 14 and the input is truncated. -/
theorem from_bytes_truncated_returns_default_witness :
    Packet.from_bytes trivialCodec [0x51, 1, 13, 1, 0, 0, 0, 0, 0, 0, 0, 0]
      = Packet.defaultPacket :=
  from_bytes_truncated_returns_default trivialCodec _
    (Or.inr ⟨by decide, by decide⟩)

/-- C7 (counterexample): a reply packet whose id is Default, whose body the
untyped-JSON parser accepts. The claim says stage (b) should tag the JSON
value with the original ID, but `Packet::from_bytes` leaves the parsed result
empty: the fallback chain is gated on the id being Control, Config or Status.
The raw payload is still retained. -/
theorem reply_packet_default_id_skips_fallback :
    (Packet.from_bytes jsonOkCodec
      [0x44, 1, 0x0D, 1, 0, 0, 0, 0, 0, 2, 49, 50]).header.packet_type.reply
      = true ∧
    (Packet.from_bytes jsonOkCodec
      [0x44, 1, 0x0D, 1, 0, 0, 0, 0, 0, 2, 49, 50]).header.id = ID.Default ∧
    jsonOkCodec.parseValue (Packet.from_bytes jsonOkCodec
      [0x44, 1, 0x0D, 1, 0, 0, 0, 0, 0, 2, 49, 50]).data = some Json.null ∧
    (Packet.from_bytes jsonOkCodec
      [0x44, 1, 0x0D, 1, 0, 0, 0, 0, 0, 2, 49, 50]).parsed = none ∧
    (Packet.from_bytes jsonOkCodec
      [0x44, 1, 0x0D, 1, 0, 0, 0, 0, 0, 2, 49, 50]).data = [49, 50] :=
  ⟨rfl, rfl, rfl, rfl, rfl⟩

/-- The strict-order degrade-gracefully chain the spec describes for reply
bodies: the typed-schema result if it parsed, else the untyped JSON value
tagged with the id, else the UTF-8 text tagged with the id, else nothing.
Stated from the spec's words, to be compared with what `Packet.from_bytes`
computes. -/
def fallbackFor (c : JsonCodec) (typed : Option Message) (id : ID)
    (data : List Nat) : Option Message :=
  typed.orElse (fun _ =>
    ((c.parseValue data).map (fun v => Message.Parsed (id, v))).orElse (fun _ =>
      (c.utf8 data).map (fun s => Message.Unparsed (id, s))))

lemma from_bytes_unfold (c : JsonCodec) (bytes : List Nat)
    (hlen : headerSizeOf bytes ≤ bytes.length) :
    Packet.from_bytes c bytes =
      { header := Header.fromBytes (bytes.take (headerSizeOf bytes)),
        data := bytes.drop (headerSizeOf bytes),
        parsed :=
          if (Header.fromBytes
              (bytes.take (headerSizeOf bytes))).packet_type.reply then
            let header := Header.fromBytes (bytes.take (headerSizeOf bytes))
            let data := bytes.drop (headerSizeOf bytes)
            let typed : Option Message :=
              match header.id with
              | ID.Control => (c.parseControl data).map Message.Control
              | ID.Config => (c.parseConfig data).map Message.Config
              | ID.Status => (c.parseStatus data).map Message.Status
              | _ => none
            match typed with
            | some v => some v
            | none =>
              match header.id with
              | ID.Control | ID.Config | ID.Status =>
                match c.parseValue data with
                | some v => some (Message.Parsed (header.id, v))
                | none =>
                  match c.utf8 data with
                  | some s => some (Message.Unparsed (header.id, s))
                  | none => none
              | _ => none
          else none } := by
  have h10 : ¬ bytes.length < 10 := by
    unfold headerSizeOf at hlen
    split at hlen <;> omega
  have hhs : ¬ bytes.length < headerSizeOf bytes := Nat.not_lt.mpr hlen
  unfold Packet.from_bytes
  rw [if_neg h10]
  dsimp only
  rw [if_neg hhs]

/-- C7 (amended): for every input long enough for its header, the raw
payload bytes after the header are always retained on the packet; when the
reply flag is set and the id is Control, Config or Status, the parsed result
is exactly the strict-order fallback chain (typed schema, then untyped JSON
tagged with the id, then UTF-8 text tagged with the id, then empty); when the
reply flag is clear, or the id is any other value, the parsed result is left
empty without attempting any stage. -/
theorem from_bytes_reply_fallback_chain (c : JsonCodec) (bytes : List Nat)
    (hlen : headerSizeOf bytes ≤ bytes.length) :
    (Packet.from_bytes c bytes).header =
      Header.fromBytes (bytes.take (headerSizeOf bytes)) ∧
    (Packet.from_bytes c bytes).data = bytes.drop (headerSizeOf bytes) ∧
    ((Header.fromBytes
        (bytes.take (headerSizeOf bytes))).packet_type.reply = false →
      (Packet.from_bytes c bytes).parsed = none) ∧
    ((Header.fromBytes
        (bytes.take (headerSizeOf bytes))).packet_type.reply = true →
      ((Header.fromBytes (bytes.take (headerSizeOf bytes))).id = ID.Control →
        (Packet.from_bytes c bytes).parsed =
          fallbackFor c
            ((c.parseControl (bytes.drop (headerSizeOf bytes))).map
              Message.Control)
            ID.Control (bytes.drop (headerSizeOf bytes))) ∧
      ((Header.fromBytes (bytes.take (headerSizeOf bytes))).id = ID.Config →
        (Packet.from_bytes c bytes).parsed =
          fallbackFor c
            ((c.parseConfig (bytes.drop (headerSizeOf bytes))).map
              Message.Config)
            ID.Config (bytes.drop (headerSizeOf bytes))) ∧
      ((Header.fromBytes (bytes.take (headerSizeOf bytes))).id = ID.Status →
        (Packet.from_bytes c bytes).parsed =
          fallbackFor c
            ((c.parseStatus (bytes.drop (headerSizeOf bytes))).map
              Message.Status)
            ID.Status (bytes.drop (headerSizeOf bytes))) ∧
      ((Header.fromBytes (bytes.take (headerSizeOf bytes))).id ≠ ID.Control →
        (Header.fromBytes (bytes.take (headerSizeOf bytes))).id ≠ ID.Config →
        (Header.fromBytes (bytes.take (headerSizeOf bytes))).id ≠ ID.Status →
        (Packet.from_bytes c bytes).parsed = none)) := by
  rw [from_bytes_unfold c bytes hlen]
  dsimp only
  refine ⟨rfl, rfl, ?_, ?_⟩
  · intro hrep
    rw [hrep]
    simp
  · intro hrep
    rw [hrep]
    simp only [if_true]
    refine ⟨?_, ?_, ?_, ?_⟩
    · intro hid
      rw [hid]
      cases hc : c.parseControl (bytes.drop (headerSizeOf bytes)) <;>
        cases hv : c.parseValue (bytes.drop (headerSizeOf bytes)) <;>
        cases hu : c.utf8 (bytes.drop (headerSizeOf bytes)) <;>
          simp [fallbackFor, Option.orElse, hc, hv, hu]
    · intro hid
      rw [hid]
      cases hc : c.parseConfig (bytes.drop (headerSizeOf bytes)) <;>
        cases hv : c.parseValue (bytes.drop (headerSizeOf bytes)) <;>
        cases hu : c.utf8 (bytes.drop (headerSizeOf bytes)) <;>
          simp [fallbackFor, Option.orElse, hc, hv, hu]
    · intro hid
      rw [hid]
      cases hc : c.parseStatus (bytes.drop (headerSizeOf bytes)) <;>
        cases hv : c.parseValue (bytes.drop (headerSizeOf bytes)) <;>
        cases hu : c.utf8 (bytes.drop (headerSizeOf bytes)) <;>
          simp [fallbackFor, Option.orElse, hc, hv, hu]
    · intro hc hg hs
      cases hid : (Header.fromBytes (bytes.take (headerSizeOf bytes))).id <;>
        simp_all

end DDP
namespace DDP

/-- Witness for C7 at a concrete input: a 10-byte reply header with the
Config id and an empty body, under the all-parsers-fail assignment. -/
theorem from_bytes_reply_fallback_chain_witness :
    (Packet.from_bytes trivialCodec
        [0x44, 1, 13, 250, 0, 0, 0, 0, 0, 0]).parsed =
      fallbackFor trivialCodec
        ((trivialCodec.parseConfig
          ([0x44, 1, 13, 250, 0, 0, 0, 0, 0, 0].drop
            (headerSizeOf [0x44, 1, 13, 250, 0, 0, 0, 0, 0, 0]))).map
          Message.Config)
        ID.Config
        ([0x44, 1, 13, 250, 0, 0, 0, 0, 0, 0].drop
          (headerSizeOf [0x44, 1, 13, 250, 0, 0, 0, 0, 0, 0])) :=
  (((from_bytes_reply_fallback_chain trivialCodec
    [0x44, 1, 13, 250, 0, 0, 0, 0, 0, 0] (by decide)).2.2.2
      (by decide)).2.1) (by decide)

/-- Witness for C5 at a concrete input: 2000 bytes of value 7 from a fresh
connection. -/
theorem write_2000_bytes_two_datagrams_witness :
    ∃ h1 c1 h2 c2,
      (DDPConnection.write DDPConnection.try_new PixelConfig.default
        ID.Default (List.replicate 2000 7)).1.datagrams =
        DDPConnection.try_new.datagrams ++
          [assemble_packet h1 c1, assemble_packet h2 c2] ∧
      c1 = (List.replicate 2000 7).take 1440 ∧ h1.length = 1440 ∧
      h1.offset = 0 ∧ h1.packet_type.push = false ∧
      c2 = (List.replicate 2000 7).drop 1440 ∧ h2.length = 560 ∧
      h2.offset = 1440 ∧ h2.packet_type.push = true :=
  write_2000_bytes_two_datagrams DDPConnection.try_new PixelConfig.default
    ID.Default (List.replicate 2000 7) (by rw [List.length_replicate])

end DDP
